import Mathlib

/-
Verification development for the nodeadm core of amazon-eks-ami:
- the EC2 InstanceConditionWaiter (nodeadm/internal/aws/ec2/instance_waiter.go)
- the containerd daemon EnsureRunning phase (nodeadm/internal/containerd/daemon.go)
- the containerd config composition exercised by snapshotter_test.go

Go durations (time.Duration, int64 nanoseconds) are modelled as Int; the
external collaborators (the DescribeInstances client, the smithy backoff
ComputeDelay, SleepWithContext, and the AWS SDK retryable/timeout
classifier verdicts) are modelled as oracles supplied per run, so that the
control flow of the repository code itself is embedded exactly.
-/

namespace EksAmi

/-- Go time.Duration: int64 nanoseconds, modelled as Int. -/
abbrev Duration := Int

/-- One second, in nanoseconds (Go time.Second). -/
def second : Duration := 1000000000

/-- Model of a non-nil Go error returned by the DescribeInstances call.
The AWS SDK classifier verdicts are carried as attributes of the error:
`timeoutVerdict` is the boolean outcome of
`timeouts.IsErrorTimeout(err).Bool()`; `code` is the API error code (none
when the error carries no code); `defaultRetryable` is the first
non-Unknown ternary produced by `retry.DefaultRetryables` (none when all
of them answer Unknown). -/
structure ApiError where
  timeoutVerdict : Bool
  code : Option String
  defaultRetryable : Option Bool
deriving Repr, DecidableEq

/-- The error code given special retryable treatment by the waiter. -/
def invalidInstanceIdNotFound : String := "InvalidInstanceID.NotFound"

/-- Model of `retryables.IsErrorRetryable(err).Bool()`: the `retryables`
variable prepends `retry.RetryableErrorCode{Codes: InvalidInstanceID.NotFound}`
to `retry.DefaultRetryables`, and `IsErrorRetryables` returns the first
non-Unknown ternary; `.Bool()` maps Unknown and False to false. -/
def retryablesVerdict (e : ApiError) : Bool :=
  if e.code = some invalidInstanceIdNotFound then true
  else e.defaultRetryable.getD false

/-- Model of `timeouts.IsErrorTimeout(err).Bool()`. -/
def timeoutsVerdict (e : ApiError) : Bool :=
  e.timeoutVerdict

/-- Embedding of `isErrorRetryable` (instance_waiter.go): a nil error (the
`none` case) falls through the `err != nil` guard to the final
`return true`. -/
def isErrorRetryable : Option ApiError → Bool
  | some e =>
    if timeoutsVerdict e then true
    else if retryablesVerdict e then true
    else false
  | none => true

/-- Embedding of InstanceConditionWaiterOptions (the fields the waiter's
control flow reads; APIOptions and ClientOptions only decorate the inner
API call, which is abstract here). -/
structure InstanceConditionWaiterOptions where
  MinDelay : Duration
  MaxDelay : Duration
  LogWaitAttempts : Bool
deriving Repr, DecidableEq

/-- Embedding of `NewInstanceConditionWaiter`'s options computation: start
from the zero value, set MinDelay to 15s and MaxDelay to 120s, then apply
the constructor option functions in order. -/
def newWaiterOptions
    (optFns : List (InstanceConditionWaiterOptions → InstanceConditionWaiterOptions)) :
    InstanceConditionWaiterOptions :=
  let options : InstanceConditionWaiterOptions :=
    { MinDelay := 15 * second, MaxDelay := 120 * second, LogWaitAttempts := false }
  optFns.foldl (fun o f => f o) options

/-- The environment of one `WaitForOutput` run: the external collaborators,
indexed by the 1-based attempt number. `describe` returns the pair
(out, err) produced by the DescribeInstances client; `condition` is the
caller-supplied predicate over the (possibly nil) response; `elapsed`
is the wall time `time.Since(start)` of the attempt; `computeDelay`
models `smithywaiter.ComputeDelay`; `sleep` models
`smithytime.SleepWithContext`, returning a cancellation error message
when the context fires during the sleep. -/
structure WaiterEnv (Output : Type) where
  describe : Nat → Option Output × Option ApiError
  condition : Option Output → Except String Bool
  elapsed : Nat → Duration
  computeDelay : Nat → Duration → Duration → Duration → Except String Duration
  sleep : Nat → Duration → Option String

/-- The errors `WaitForOutput` can return, one constructor per
`return`/`fmt.Errorf` site. -/
inductive WaitError where
  | configMaxWait
  | configMinMax (minDelay maxDelay : Duration)
  | apiTerminal (e : ApiError)
  | conditionFailed (msg : String)
  | computeDelayFailed (msg : String)
  | cancelled (msg : String)
  | exceededMaxWaitTime
deriving Repr, DecidableEq

/-- The fixed message text of the errors whose Go format string has no
interpolated run-time data. -/
def WaitError.message : WaitError → String
  | .configMaxWait => "maximum wait time for waiter must be greater than zero"
  | .configMinMax _ _ => "minimum waiter delay must be lesser than or equal to maximum waiter delay"
  | .apiTerminal _ => "terminal API error"
  | .conditionFailed m => m
  | .computeDelayFailed m => m
  | .cancelled m => m
  | .exceededMaxWaitTime => "exceeded max wait time for InstanceCondition waiter"

/-- Outcome of one loop iteration: either the function returns (`done`,
carrying the Go pair (out, err)), or the loop continues with the new
remaining budget. -/
inductive StepOut (Output : Type) where
  | done (out : Option Output) (err : Option WaitError)
  | next (remainingTime : Duration)
deriving Repr

/-- The tail of one iteration after a retryable error or an unsatisfied
condition: subtract the iteration's elapsed time from the budget, break
out (deadline exceeded) when the remainder is below MinDelay or ≤ 0,
otherwise compute the backoff delay, subtract it, and sleep. -/
def waitBackoff {Output : Type} (env : WaiterEnv Output)
    (minDelay maxDelay : Duration) (attempt : Nat) (remainingTime : Duration) :
    StepOut Output :=
  let remaining2 := remainingTime - env.elapsed attempt
  if remaining2 < minDelay ∨ remaining2 ≤ 0 then
    .done none (some .exceededMaxWaitTime)
  else
    match env.computeDelay attempt minDelay maxDelay remaining2 with
    | .error msg => .done none (some (.computeDelayFailed msg))
    | .ok delay =>
      match env.sleep attempt delay with
      | some msg => .done none (some (.cancelled msg))
      | none => .next (remaining2 - delay)

/-- One full iteration of the `for` loop in `WaitForOutput`, at a given
1-based attempt number: call the client; a non-retryable error returns
(out, err) at once; a nil error evaluates the condition (error aborts with
nil output, true returns (out, nil)); otherwise fall through to
`waitBackoff`. -/
def waitStep {Output : Type} (env : WaiterEnv Output)
    (minDelay maxDelay : Duration) (attempt : Nat) (remainingTime : Duration) :
    StepOut Output :=
  match env.describe attempt with
  | (out, some e) =>
    if !isErrorRetryable (some e) then .done out (some (.apiTerminal e))
    else waitBackoff env minDelay maxDelay attempt remainingTime
  | (out, none) =>
    match env.condition out with
    | .error msg => .done none (some (.conditionFailed msg))
    | .ok true => .done out none
    | .ok false => waitBackoff env minDelay maxDelay attempt remainingTime

/-- The waiter loop, with fuel bounding the number of iterations the model
unfolds (the Go loop has no iteration bound of its own). The result also
carries the number of DescribeInstances calls made; `none` means the fuel
ran out before the run returned. -/
def waitLoop {Output : Type} (env : WaiterEnv Output)
    (minDelay maxDelay : Duration) :
    Nat → Nat → Duration → Option (Nat × Option Output × Option WaitError)
  | 0, _, _ => none
  | fuel + 1, attempt, remainingTime =>
    match waitStep env minDelay maxDelay (attempt + 1) remainingTime with
    | .done out err => some (attempt + 1, out, err)
    | .next rt => waitLoop env minDelay maxDelay fuel (attempt + 1) rt

/-- The per-call options resolution inside `WaitForOutput`: apply the
per-call option functions to the waiter's stored options, then re-default
MaxDelay to 120s when it resolved to ≤ 0. -/
def resolveOptions (w : InstanceConditionWaiterOptions)
    (optFns : List (InstanceConditionWaiterOptions → InstanceConditionWaiterOptions)) :
    InstanceConditionWaiterOptions :=
  let options := optFns.foldl (fun o f => f o) w
  if options.MaxDelay ≤ 0 then { options with MaxDelay := 120 * second } else options

/-- Embedding of `WaitForOutput`: validate maxWaitDur, resolve options,
validate MinDelay ≤ MaxDelay, then run the loop with budget maxWaitDur.
The Nat in the result counts DescribeInstances calls (0 on the validation
paths, where the Go code returns before touching the client). -/
def WaitForOutput {Output : Type} (env : WaiterEnv Output)
    (w : InstanceConditionWaiterOptions) (maxWaitDur : Duration)
    (optFns : List (InstanceConditionWaiterOptions → InstanceConditionWaiterOptions))
    (fuel : Nat) : Option (Nat × Option Output × Option WaitError) :=
  if maxWaitDur ≤ 0 then some (0, none, some .configMaxWait)
  else
    let options := resolveOptions w optFns
    if options.MinDelay > options.MaxDelay then
      some (0, none, some (.configMinMax options.MinDelay options.MaxDelay))
    else
      waitLoop env options.MinDelay options.MaxDelay fuel 0 maxWaitDur

/-- Feature gate identifiers are free-form strings (Go: `type Feature string`). -/
abbrev Feature := String

/-- Modelled from the spec: the `api.FastContainerImagePull` feature-gate
constant (the api package is not under src/); the spec names the gate
"fast-image-pull". -/
def FastContainerImagePull : Feature := "fast-image-pull"

/-- The gate set of a NodeConfig: a mapping from feature identifier to
boolean, modelled as an association list (Go: `map[Feature]bool`). -/
abbrev FeatureGates := List (Feature × Bool)

/-- Modelled from the spec: `api.IsFeatureEnabled` (the api package is not
under src/): look the gate up in the set; an absent key is treated as
disabled, never as an error. -/
def IsFeatureEnabled (feature : Feature) (gates : FeatureGates) : Bool :=
  match gates.lookup feature with
  | some enabled => enabled
  | none => false

/-- The nested specification block of NodeConfig read by containerd. -/
structure NodeConfigSpec where
  featureGates : FeatureGates
deriving Repr

/-- The root configuration entity of one bootstrap run. -/
structure NodeConfig where
  spec : NodeConfigSpec
deriving Repr

/-- Unit name constant from daemon.go. -/
def ContainerdDaemonName : String := "containerd"

/-- Unit name constant from daemon.go. -/
def SociSnapshotterSocketName : String := "soci-snapshotter.socket"

/-- Embedding of containerd's `EnsureRunning` (daemon.go): the
daemon-manager collaborator is the oracle `startDaemon` (none = success);
the result carries the ordered list of StartDaemon calls made and the
returned error. Start the primary "containerd" unit; on its failure
return that error at once; then start "soci-snapshotter.socket" only when
the FastContainerImagePull gate is enabled. -/
def EnsureRunning (startDaemon : String → Option String) (cfg : NodeConfig) :
    List String × Option String :=
  match startDaemon ContainerdDaemonName with
  | some e => ([ContainerdDaemonName], some e)
  | none =>
    if IsFeatureEnabled FastContainerImagePull cfg.spec.featureGates then
      ([ContainerdDaemonName, SociSnapshotterSocketName],
        startDaemon SociSnapshotterSocketName)
    else
      ([ContainerdDaemonName], none)

mutual

/-- A TOML-like structured document: string scalars at the leaves and
nested tables (the shapes the snapshotter fragment and its test exercise). -/
inductive TomlValue where
  | str (s : String)
  | table (entries : TomlEntries)

/-- The ordered entry list of a table. -/
inductive TomlEntries where
  | nil
  | cons (key : String) (value : TomlValue) (rest : TomlEntries)

end

mutual

/-- Recursive fragment merge per the Config Composer contract: scalar
leaves are overwritten by the later fragment; tables merge key-wise. -/
def TomlValue.merge : TomlValue → TomlValue → TomlValue
  | .table a, .table b => .table (TomlEntries.mergeInto a b)
  | _, v => v

/-- Fold the overlay's entries into the base table, in order. -/
def TomlEntries.mergeInto : TomlEntries → TomlEntries → TomlEntries
  | base, .nil => base
  | base, .cons k v rest => TomlEntries.mergeInto (TomlEntries.insert base k v) rest

/-- Merge one overlay entry into a table's entry list: merge into the
first entry with the same key, or append at the end. -/
def TomlEntries.insert : TomlEntries → String → TomlValue → TomlEntries
  | .nil, k, v => .cons k v .nil
  | .cons k0 v0 tl, k, v =>
    if k0 = k then .cons k0 (TomlValue.merge v0 v) tl
    else .cons k0 v0 (TomlEntries.insert tl k v)

end

/-- Look a key up in a table's entry list. -/
def TomlEntries.lookup : TomlEntries → String → Option TomlValue
  | .nil, _ => none
  | .cons k0 v0 tl, k => if k0 = k then some v0 else tl.lookup k

/-- Look a key up in a document (none when the document is a scalar). -/
def TomlValue.lookupKey : TomlValue → String → Option TomlValue
  | .table es, k => es.lookup k
  | .str _, _ => none

/-- Follow a path of keys through nested tables. -/
def TomlValue.lookupPath : TomlValue → List String → Option TomlValue
  | v, [] => some v
  | v, k :: ks =>
    match v.lookupKey k with
    | some w => w.lookupPath ks
    | none => none

/-- Follow a path and return the string scalar found there, if any. -/
def TomlValue.lookupStr (v : TomlValue) (path : List String) : Option String :=
  match v.lookupPath path with
  | some (.str s) => some s
  | _ => none

/-- Modelled from the spec: the base containerd configuration fragment
(its template is not under src/); it configures the CRI plugin's
containerd settings and carries no soci snapshotter override. -/
def containerdBaseConfig : TomlValue :=
  .table (.cons "version" (.str "2")
    (.cons "plugins" (.table (.cons "io.containerd.grpc.v1.cri"
      (.table (.cons "containerd"
        (.table (.cons "default_runtime_name" (.str "runc") .nil)) .nil)) .nil)) .nil))

/-- Modelled from the spec: the snapshotter fragment merged in when
FastContainerImagePull is enabled; it sets
plugins."io.containerd.grpc.v1.cri".containerd.snapshotter = "soci" and
registers the soci proxy plugin with type "snapshot". -/
def sociConfigFragment : TomlValue :=
  .table (.cons "plugins" (.table (.cons "io.containerd.grpc.v1.cri"
      (.table (.cons "containerd"
        (.table (.cons "snapshotter" (.str "soci") .nil)) .nil)) .nil))
    (.cons "proxy_plugins" (.table (.cons "soci"
      (.table (.cons "type" (.str "snapshot") .nil)) .nil)) .nil))

/-- Modelled from the spec: `combineContainerdConfigs` (its source is not
under src/, only its test is): merge the base fragment with the
gate-conditional soci fragment, the soci fragment merged last, exactly
when the FastContainerImagePull gate is enabled in the NodeConfig. -/
def combineContainerdConfigs (cfg : NodeConfig) : TomlValue :=
  if IsFeatureEnabled FastContainerImagePull cfg.spec.featureGates then
    TomlValue.merge containerdBaseConfig sociConfigFragment
  else
    containerdBaseConfig

/-
Concrete stub collaborators used to exercise the model on closed runs.
-/

/-- A terminal (non-retryable) API error: no timeout, an error code with
no special retryable treatment, and a False default-retryables verdict. -/
def accessDeniedErr : ApiError :=
  { timeoutVerdict := false, code := some "AccessDenied", defaultRetryable := some false }

/-- A retryable API error: the eventual-consistency not-found code the
waiter registers explicitly. -/
def notFoundErr : ApiError :=
  { timeoutVerdict := false, code := some invalidInstanceIdNotFound, defaultRetryable := none }

/-- A timeout error. -/
def timeoutErr : ApiError :=
  { timeoutVerdict := true, code := none, defaultRetryable := none }

/-- Stub environment whose API call always returns a terminal error
(alongside a non-nil output), with instantaneous iterations. -/
def envTerminalStub : WaiterEnv Nat :=
  { describe := fun _ => (some 7, some accessDeniedErr),
    condition := fun _ => .ok false,
    elapsed := fun _ => 0,
    computeDelay := fun _ minD _ _ => .ok minD,
    sleep := fun _ _ => none }

/-- Stub environment whose API call always succeeds and whose condition
is immediately true. -/
def envImmediateSuccess : WaiterEnv Nat :=
  { describe := fun _ => (some 0, none),
    condition := fun _ => .ok true,
    elapsed := fun _ => 0,
    computeDelay := fun _ minD _ _ => .ok minD,
    sleep := fun _ _ => none }

/-- Stub environment for the budget boundary: every iteration takes
exactly 2 seconds, the condition becomes true on attempt 2, and the
backoff delay is the minimum delay. -/
def envBoundaryStub : WaiterEnv Nat :=
  { describe := fun n => (some n, none),
    condition := fun o => .ok (o == some 2),
    elapsed := fun _ => 2 * second,
    computeDelay := fun _ minD _ _ => .ok minD,
    sleep := fun _ _ => none }

/-- Stub environment whose condition is never true, with instantaneous
iterations and zero backoff delays. -/
def envNeverTrue : WaiterEnv Nat :=
  { describe := fun _ => (some 0, none),
    condition := fun _ => .ok false,
    elapsed := fun _ => 1 * second,
    computeDelay := fun _ _ _ _ => .ok 0,
    sleep := fun _ _ => none }

/-
Helper lemmas about the waiter loop.
-/

/-- When the loop returns a result, the result is the outcome of the
iteration at the final attempt number, and at least one attempt ran. -/
theorem waitLoop_done {Output : Type} (env : WaiterEnv Output) (minD maxD : Duration) :
    ∀ (fuel attempt : Nat) (rt : Duration) (n : Nat) (o : Option Output)
      (oe : Option WaitError),
      waitLoop env minD maxD fuel attempt rt = some (n, o, oe) →
      ∃ rt0, waitStep env minD maxD n rt0 = .done o oe ∧ attempt < n := by
  intro fuel
  induction fuel with
  | zero =>
    intro attempt rt n o oe h
    simp [waitLoop] at h
  | succ f ih =>
    intro attempt rt n o oe h
    rw [waitLoop] at h
    cases hs : waitStep env minD maxD (attempt + 1) rt with
    | done o2 oe2 =>
      rw [hs] at h
      simp only [Option.some.injEq, Prod.mk.injEq] at h
      obtain ⟨h1, h2, h3⟩ := h
      subst h1 h2 h3
      exact ⟨rt, hs, Nat.lt_succ_self attempt⟩
    | next rt2 =>
      rw [hs] at h
      obtain ⟨rt0, hstep, hlt⟩ := ih (attempt + 1) rt2 n o oe h
      exact ⟨rt0, hstep, Nat.lt_of_succ_lt hlt⟩

/-- The backoff tail of an iteration goes one of exactly four ways:
continue with a smaller budget, fail the deadline, fail computing the
delay, or fail cancelled; a `done` always carries a nil output. -/
theorem waitBackoff_cases {Output : Type} (env : WaiterEnv Output)
    (minD maxD : Duration) (attempt : Nat) (rt : Duration) :
    (∃ rt2, waitBackoff env minD maxD attempt rt = .next rt2) ∨
    waitBackoff env minD maxD attempt rt = .done none (some .exceededMaxWaitTime) ∨
    (∃ m, waitBackoff env minD maxD attempt rt = .done none (some (.computeDelayFailed m))) ∨
    (∃ m, waitBackoff env minD maxD attempt rt = .done none (some (.cancelled m))) := by
  simp only [waitBackoff]
  split
  · exact Or.inr (Or.inl rfl)
  · split
    · exact Or.inr (Or.inr (Or.inl ⟨_, rfl⟩))
    · split
      · exact Or.inr (Or.inr (Or.inr ⟨_, rfl⟩))
      · exact Or.inl ⟨_, rfl⟩

/-- The backoff tail of an iteration never returns a success and never
returns an output: every `done` it produces carries a nil output and one
of the three budget/backoff errors. -/
theorem waitBackoff_done {Output : Type} (env : WaiterEnv Output)
    (minD maxD : Duration) (attempt : Nat) (rt : Duration)
    (o : Option Output) (oe : Option WaitError)
    (h : waitBackoff env minD maxD attempt rt = .done o oe) :
    o = none ∧ (oe = some .exceededMaxWaitTime ∨
      (∃ m, oe = some (.computeDelayFailed m)) ∨
      (∃ m, oe = some (.cancelled m))) := by
  rcases waitBackoff_cases env minD maxD attempt rt with ⟨rt2, hn⟩ | he | ⟨m, hm⟩ | ⟨m, hm⟩
  · rw [hn] at h
    exact absurd h (by simp)
  · have h2 := he.symm.trans h
    injection h2 with ha hb
    exact ⟨ha.symm, Or.inl hb.symm⟩
  · have h2 := hm.symm.trans h
    injection h2 with ha hb
    exact ⟨ha.symm, Or.inr (Or.inl ⟨m, hb.symm⟩)⟩
  · have h2 := hm.symm.trans h
    injection h2 with ha hb
    exact ⟨ha.symm, Or.inr (Or.inr ⟨m, hb.symm⟩)⟩

/-
Claim theorems.
-/

/-- Claim C1: whenever a WaitForOutput run ends at an iteration whose
DescribeInstances call returned a non-retryable (terminal) error, the
run's result is exactly that error together with that call's output and
the API call count equals that iteration's number; in particular, with a
stub whose first call returns a terminal error, WaitForOutput makes
exactly one API call and returns that error. -/
theorem c1_terminal_error_aborts {Output : Type} :
    (∀ (env : WaiterEnv Output) (minD maxD : Duration) (fuel attempt : Nat)
       (rt : Duration) (n : Nat) (o o0 : Option Output) (oe : Option WaitError)
       (e : ApiError),
       waitLoop env minD maxD fuel attempt rt = some (n, o, oe) →
       env.describe n = (o0, some e) →
       isErrorRetryable (some e) = false →
       o = o0 ∧ oe = some (.apiTerminal e)) ∧
    (∀ (env : WaiterEnv Output) (w : InstanceConditionWaiterOptions)
       (maxWaitDur : Duration)
       (optFns : List (InstanceConditionWaiterOptions → InstanceConditionWaiterOptions))
       (fuel : Nat) (o0 : Option Output) (e : ApiError),
       0 < maxWaitDur →
       (resolveOptions w optFns).MinDelay ≤ (resolveOptions w optFns).MaxDelay →
       env.describe 1 = (o0, some e) →
       isErrorRetryable (some e) = false →
       WaitForOutput env w maxWaitDur optFns (fuel + 1) =
         some (1, o0, some (.apiTerminal e))) := by
  constructor
  · intro env minD maxD fuel attempt rt n o o0 oe e hloop hdesc hterm
    obtain ⟨rt0, hstep, _⟩ := waitLoop_done env minD maxD fuel attempt rt n o oe hloop
    rw [waitStep, hdesc] at hstep
    simp only [hterm, Bool.not_false, if_true, StepOut.done.injEq] at hstep
    exact ⟨hstep.1.symm, hstep.2.symm⟩
  · intro env w maxWaitDur optFns fuel o0 e hpos hle hdesc hterm
    simp only [WaitForOutput]
    rw [if_neg (not_le.mpr hpos), if_neg (not_lt.mpr hle)]
    have h01 : (0 : Nat) + 1 = 1 := rfl
    rw [waitLoop, h01, waitStep, hdesc]
    simp [hterm]

/-- Witness for C1: the terminal stub's error is not retryable, and a
run against it returns after exactly one API call with that error and
the call's non-nil output. -/
theorem c1_terminal_error_aborts_witness :
    isErrorRetryable (some accessDeniedErr) = false ∧
    WaitForOutput envTerminalStub (newWaiterOptions []) (100 * second) [] 3 =
      some (1, some 7, some (.apiTerminal accessDeniedErr)) :=
  ⟨by decide,
    (@c1_terminal_error_aborts Nat).2 envTerminalStub (newWaiterOptions [])
      (100 * second) [] 2 (some 7) accessDeniedErr (by decide) (by decide) rfl (by decide)⟩

/-- Claim C2: for every maxWaitDur ≤ 0, WaitForOutput returns the
"maximum wait time for waiter must be greater than zero" configuration
error with an API call count of zero, uniformly in the stub environment
(so the client is never invoked). -/
theorem c2_nonpositive_max_wait {Output : Type} (env : WaiterEnv Output)
    (w : InstanceConditionWaiterOptions) (maxWaitDur : Duration)
    (optFns : List (InstanceConditionWaiterOptions → InstanceConditionWaiterOptions))
    (fuel : Nat) (h : maxWaitDur ≤ 0) :
    WaitForOutput env w maxWaitDur optFns fuel = some (0, none, some .configMaxWait) ∧
    WaitError.message .configMaxWait =
      "maximum wait time for waiter must be greater than zero" :=
  ⟨by simp [WaitForOutput, h], rfl⟩

/-- Witness for C2: a run with maxWaitDur = 0 against the
always-succeeding stub still returns the configuration error with zero
API calls. -/
theorem c2_nonpositive_max_wait_witness :
    WaitForOutput envImmediateSuccess (newWaiterOptions []) 0 [] 5 =
      some (0, none, some .configMaxWait) ∧
    WaitError.message .configMaxWait =
      "maximum wait time for waiter must be greater than zero" :=
  c2_nonpositive_max_wait envImmediateSuccess (newWaiterOptions []) 0 [] 5 (by decide)

/-- Claim C4: at every iteration whose DescribeInstances call succeeds
(nil error), the condition is evaluated on the response: a condition
error ends the run at that iteration with that error and a nil output,
and a true condition ends the run at that iteration returning that
response with a nil error; the same holds of any WaitForOutput result
past the validation stage. -/
theorem c4_condition_evaluation {Output : Type} :
    (∀ (env : WaiterEnv Output) (minD maxD : Duration) (fuel attempt : Nat)
       (rt : Duration) (n : Nat) (o o0 : Option Output) (oe : Option WaitError),
       waitLoop env minD maxD fuel attempt rt = some (n, o, oe) →
       env.describe n = (o0, none) →
       (∀ msg, env.condition o0 = .error msg →
         o = none ∧ oe = some (.conditionFailed msg)) ∧
       (env.condition o0 = .ok true → o = o0 ∧ oe = none)) ∧
    (∀ (env : WaiterEnv Output) (w : InstanceConditionWaiterOptions)
       (maxWaitDur : Duration)
       (optFns : List (InstanceConditionWaiterOptions → InstanceConditionWaiterOptions))
       (fuel n : Nat) (o o0 : Option Output) (oe : Option WaitError),
       WaitForOutput env w maxWaitDur optFns fuel = some (n, o, oe) →
       1 ≤ n →
       env.describe n = (o0, none) →
       (∀ msg, env.condition o0 = .error msg →
         o = none ∧ oe = some (.conditionFailed msg)) ∧
       (env.condition o0 = .ok true → o = o0 ∧ oe = none)) := by
  have loopPart : ∀ (env : WaiterEnv Output) (minD maxD : Duration)
      (fuel attempt : Nat) (rt : Duration) (n : Nat) (o o0 : Option Output)
      (oe : Option WaitError),
      waitLoop env minD maxD fuel attempt rt = some (n, o, oe) →
      env.describe n = (o0, none) →
      (∀ msg, env.condition o0 = .error msg →
        o = none ∧ oe = some (.conditionFailed msg)) ∧
      (env.condition o0 = .ok true → o = o0 ∧ oe = none) := by
    intro env minD maxD fuel attempt rt n o o0 oe hloop hdesc
    obtain ⟨rt0, hstep, _⟩ := waitLoop_done env minD maxD fuel attempt rt n o oe hloop
    simp only [waitStep, hdesc] at hstep
    constructor
    · intro msg hcond
      rw [hcond] at hstep
      simp only [StepOut.done.injEq] at hstep
      exact ⟨hstep.1.symm, hstep.2.symm⟩
    · intro hcond
      rw [hcond] at hstep
      simp only [StepOut.done.injEq] at hstep
      exact ⟨hstep.1.symm, hstep.2.symm⟩
  refine ⟨loopPart, ?_⟩
  intro env w maxWaitDur optFns fuel n o o0 oe hrun hn hdesc
  simp only [WaitForOutput] at hrun
  split at hrun
  · simp only [Option.some.injEq, Prod.mk.injEq] at hrun
    omega
  · split at hrun
    · simp only [Option.some.injEq, Prod.mk.injEq] at hrun
      omega
    · exact loopPart env _ _ fuel 0 maxWaitDur n o o0 oe hrun hdesc

/-- Witness for C4: against a stub whose first call succeeds with the
condition immediately true, WaitForOutput returns that response with a
nil error after one call. -/
theorem c4_condition_evaluation_witness :
    envImmediateSuccess.condition (some 0) = .ok true ∧
    WaitForOutput envImmediateSuccess (newWaiterOptions []) (100 * second) [] 5 =
      some (1, some 0, none) := by
  have hrun : WaitForOutput envImmediateSuccess (newWaiterOptions []) (100 * second) [] 5 =
      some (1, some 0, none) := by decide
  have h := ((@c4_condition_evaluation Nat).2 envImmediateSuccess
    (newWaiterOptions []) (100 * second) [] 5 1 (some 0) (some 0) none hrun
    (by decide) rfl).2 rfl
  exact ⟨rfl, by rw [hrun, h.1]⟩

/-- Claim C5: a non-terminal, unsatisfied iteration whose budget, after
subtracting the iteration's elapsed time, is below MinDelay or ≤ 0 ends
the run with the deadline-exceeded error and a nil output; that error is
distinct from every terminal API error and every condition error and
carries the "exceeded max wait time" message; and a completed run never
returns success unless its final call succeeded with the condition
evaluating to true. -/
theorem c5_deadline_exceeded {Output : Type} :
    (∀ (env : WaiterEnv Output) (minD maxD : Duration) (attempt : Nat)
       (rt : Duration) (o0 : Option Output),
       ((∃ e, env.describe attempt = (o0, some e) ∧ isErrorRetryable (some e) = true) ∨
        (env.describe attempt = (o0, none) ∧ env.condition o0 = .ok false)) →
       (rt - env.elapsed attempt < minD ∨ rt - env.elapsed attempt ≤ 0) →
       waitStep env minD maxD attempt rt = .done none (some .exceededMaxWaitTime)) ∧
    (∀ (env : WaiterEnv Output) (minD maxD : Duration) (fuel attempt : Nat)
       (rt : Duration) (n : Nat) (o : Option Output),
       waitLoop env minD maxD fuel attempt rt = some (n, o, none) →
       (env.describe n).2 = none ∧ env.condition (env.describe n).1 = .ok true) ∧
    ((∀ e, WaitError.exceededMaxWaitTime ≠ .apiTerminal e) ∧
     (∀ m, WaitError.exceededMaxWaitTime ≠ .conditionFailed m) ∧
     WaitError.message .exceededMaxWaitTime =
       "exceeded max wait time for InstanceCondition waiter") := by
  refine ⟨?_, ?_, ⟨fun e h => WaitError.noConfusion h,
    fun m h => WaitError.noConfusion h, rfl⟩⟩
  · intro env minD maxD attempt rt o0 hiter hbudget
    have hback : waitBackoff env minD maxD attempt rt =
        .done none (some .exceededMaxWaitTime) := by
      simp only [waitBackoff]
      rw [if_pos hbudget]
    rcases hiter with ⟨e, hdesc, hret⟩ | ⟨hdesc, hcond⟩
    · rw [waitStep, hdesc]
      simp only [hret, Bool.not_true, Bool.false_eq_true, if_false]
      exact hback
    · simp only [waitStep, hdesc, hcond]
      exact hback
  · intro env minD maxD fuel attempt rt n o hloop
    obtain ⟨rt0, hstep, _⟩ := waitLoop_done env minD maxD fuel attempt rt n o none hloop
    rcases hdesc : env.describe n with ⟨o0, eo⟩
    cases eo with
    | some e =>
      simp only [waitStep, hdesc] at hstep
      by_cases hret : isErrorRetryable (some e) = true
      · simp only [hret, Bool.not_true, Bool.false_eq_true, if_false] at hstep
        obtain ⟨-, hcases⟩ := waitBackoff_done env minD maxD n rt0 o none hstep
        rcases hcases with h | ⟨m, h⟩ | ⟨m, h⟩ <;> exact absurd h (by simp)
      · rw [Bool.not_eq_true] at hret
        simp only [hret, Bool.not_false, if_true, StepOut.done.injEq] at hstep
        exact absurd hstep.2.symm (by simp)
    | none =>
      simp only [waitStep, hdesc] at hstep
      cases hcond : env.condition o0 with
      | error msg =>
        rw [hcond] at hstep
        simp only [StepOut.done.injEq] at hstep
        exact absurd hstep.2.symm (by simp)
      | ok b =>
        cases b with
        | true => exact ⟨rfl, rfl⟩
        | false =>
          rw [hcond] at hstep
          simp only [] at hstep
          obtain ⟨-, hcases⟩ := waitBackoff_done env minD maxD n rt0 o none hstep
          rcases hcases with h | ⟨m, h⟩ | ⟨m, h⟩ <;> exact absurd h (by simp)

/-- Witness for C5: against a stub whose condition is never true, a 1s
budget with 1s iterations expires after the first poll and WaitForOutput
returns the deadline-exceeded error, not a success. -/
theorem c5_deadline_exceeded_witness :
    waitStep envNeverTrue (15 * second) (120 * second) 1 (1 * second) =
      .done none (some .exceededMaxWaitTime) ∧
    WaitError.message .exceededMaxWaitTime =
      "exceeded max wait time for InstanceCondition waiter" :=
  ⟨(@c5_deadline_exceeded Nat).1 envNeverTrue (15 * second) (120 * second)
      1 (1 * second) (some 0) (Or.inr ⟨rfl, rfl⟩) (by decide),
    (@c5_deadline_exceeded Nat).2.2.2.2⟩

/-- Claim C10: a WaitForOutput error result carrying a non-nil output
occurs only on the terminal-API-error path, where the output is exactly
what the client returned on the final call; conversely a terminal error
at an iteration returns the client's (possibly non-nil) output alongside
the error, and every other failure path yields a nil output. -/
theorem c10_output_on_error {Output : Type} :
    (∀ (env : WaiterEnv Output) (w : InstanceConditionWaiterOptions)
       (maxWaitDur : Duration)
       (optFns : List (InstanceConditionWaiterOptions → InstanceConditionWaiterOptions))
       (fuel n : Nat) (o : Option Output) (e : WaitError),
       WaitForOutput env w maxWaitDur optFns fuel = some (n, o, some e) →
       o ≠ none →
       ∃ ae, e = .apiTerminal ae ∧ env.describe n = (o, some ae)) ∧
    (∀ (env : WaiterEnv Output) (minD maxD : Duration) (attempt : Nat)
       (rt : Duration) (o0 : Option Output) (e : ApiError),
       env.describe attempt = (o0, some e) →
       isErrorRetryable (some e) = false →
       waitStep env minD maxD attempt rt = .done o0 (some (.apiTerminal e))) := by
  constructor
  · intro env w maxWaitDur optFns fuel n o e hrun honn
    simp only [WaitForOutput] at hrun
    split at hrun
    · simp only [Option.some.injEq, Prod.mk.injEq] at hrun
      exact absurd hrun.2.1.symm honn
    · split at hrun
      · simp only [Option.some.injEq, Prod.mk.injEq] at hrun
        exact absurd hrun.2.1.symm honn
      · obtain ⟨rt0, hstep, -⟩ := waitLoop_done env _ _ fuel 0 maxWaitDur n o (some e) hrun
        rcases hdesc : env.describe n with ⟨o0, eo⟩
        cases eo with
        | some ae =>
          simp only [waitStep, hdesc] at hstep
          by_cases hret : isErrorRetryable (some ae) = true
          · simp only [hret, Bool.not_true, Bool.false_eq_true, if_false] at hstep
            obtain ⟨ho, -⟩ := waitBackoff_done env _ _ n rt0 o (some e) hstep
            exact absurd ho honn
          · rw [Bool.not_eq_true] at hret
            simp only [hret, Bool.not_false, if_true, StepOut.done.injEq,
              Option.some.injEq] at hstep
            exact ⟨ae, hstep.2.symm, by rw [hstep.1]⟩
        | none =>
          simp only [waitStep, hdesc] at hstep
          cases hcond : env.condition o0 with
          | error msg =>
            rw [hcond] at hstep
            simp only [StepOut.done.injEq] at hstep
            exact absurd hstep.1.symm honn
          | ok b =>
            cases b with
            | true =>
              rw [hcond] at hstep
              simp only [StepOut.done.injEq] at hstep
              exact absurd hstep.2.symm (by simp)
            | false =>
              rw [hcond] at hstep
              simp only [] at hstep
              obtain ⟨ho, -⟩ := waitBackoff_done env _ _ n rt0 o (some e) hstep
              exact absurd ho honn
  · intro env minD maxD attempt rt o0 e hdesc hterm
    rw [waitStep, hdesc]
    simp [hterm]

/-- Witness for C10: the terminal stub returns a non-nil output on its
failing call, and the run's result carries exactly that output next to
the terminal error. -/
theorem c10_output_on_error_witness :
    (∃ ae, WaitError.apiTerminal accessDeniedErr = .apiTerminal ae ∧
      envTerminalStub.describe 1 = (some 7, some ae)) ∧
    waitStep envTerminalStub (15 * second) (120 * second) 1 (100 * second) =
      .done (some 7) (some (.apiTerminal accessDeniedErr)) := by
  constructor
  · exact (@c10_output_on_error Nat).1 envTerminalStub (newWaiterOptions [])
      (100 * second) [] 3 1 (some 7) (.apiTerminal accessDeniedErr)
      (by decide) (by simp)
  · exact (@c10_output_on_error Nat).2 envTerminalStub (15 * second)
      (120 * second) 1 (100 * second) (some 7) accessDeniedErr rfl (by decide)

/-- The per-call option functions of the C3 counterexample: set MinDelay
to 16 seconds and MaxDelay to 0 ("unset"). -/
def c3OptFns : List (InstanceConditionWaiterOptions → InstanceConditionWaiterOptions) :=
  [fun o => { o with MinDelay := 16 * second, MaxDelay := 0 }]

/-- Counterexample to C3 as stated: after applying the per-call option
functions, MinDelay (16s) is greater than MaxDelay (0), yet WaitForOutput
returns no configuration error and makes an API call — the MaxDelay ≤ 0
re-defaulting to 120s runs before the MinDelay > MaxDelay check. -/
theorem c3_counterexample :
    (c3OptFns.foldl (fun o f => f o) (newWaiterOptions [])).MinDelay >
      (c3OptFns.foldl (fun o f => f o) (newWaiterOptions [])).MaxDelay ∧
    WaitForOutput envImmediateSuccess (newWaiterOptions []) (100 * second) c3OptFns 5 =
      some (1, some 0, none) := by
  constructor
  · decide
  · decide

/-- Claim C3 (amended): the waiter's options start from MinDelay = 15s
and MaxDelay = 120s, to which the option functions are then applied; and
whenever the options resolved at call time — per-call option functions
applied, then MaxDelay re-defaulted to 120s when it resolved to ≤ 0 —
have MinDelay > MaxDelay, WaitForOutput returns the configuration error
without making any API call. -/
theorem c3_min_max_validation {Output : Type} :
    ((newWaiterOptions []).MinDelay = 15 * second ∧
     (newWaiterOptions []).MaxDelay = 120 * second ∧
     (∀ optFns, newWaiterOptions optFns = optFns.foldl (fun o f => f o)
       { MinDelay := 15 * second, MaxDelay := 120 * second, LogWaitAttempts := false })) ∧
    (∀ (env : WaiterEnv Output) (w : InstanceConditionWaiterOptions)
       (maxWaitDur : Duration)
       (optFns : List (InstanceConditionWaiterOptions → InstanceConditionWaiterOptions))
       (fuel : Nat),
       0 < maxWaitDur →
       (resolveOptions w optFns).MinDelay > (resolveOptions w optFns).MaxDelay →
       WaitForOutput env w maxWaitDur optFns fuel =
         some (0, none, some (.configMinMax (resolveOptions w optFns).MinDelay
           (resolveOptions w optFns).MaxDelay))) := by
  refine ⟨⟨rfl, rfl, fun optFns => rfl⟩, ?_⟩
  intro env w maxWaitDur optFns fuel hpos hgt
  simp only [WaitForOutput]
  rw [if_neg (not_le.mpr hpos), if_pos hgt]

/-- Witness for C3 (amended): a per-call option function raising MinDelay
to 200s above the default 120s MaxDelay makes WaitForOutput return the
configuration error with zero API calls. -/
theorem c3_min_max_validation_witness :
    WaitForOutput envImmediateSuccess (newWaiterOptions []) (100 * second)
      [fun o => { o with MinDelay := 200 * second }] 5 =
      some (0, none, some (.configMinMax (200 * second) (120 * second))) := by
  have h := (@c3_min_max_validation Nat).2 envImmediateSuccess
    (newWaiterOptions []) (100 * second) [fun o => { o with MinDelay := 200 * second }] 5
    (by decide) (by decide)
  exact h

/-- Options used by the C9 boundary runs: MinDelay 2s, MaxDelay 120s. -/
def boundaryOptions : InstanceConditionWaiterOptions :=
  { MinDelay := 2 * second, MaxDelay := 120 * second, LogWaitAttempts := false }

/-- Counterexample to C9 as stated: with a 4s budget and a first
iteration taking 2s, the remaining budget equals MinDelay (2s) exactly;
the waiter does not stop there: it polls a second time and that poll
succeeds, so the run returns success after 2 API calls instead of the
claimed deadline-exceeded error. -/
theorem c9_counterexample :
    4 * second - envBoundaryStub.elapsed 1 = boundaryOptions.MinDelay ∧
    WaitForOutput envBoundaryStub boundaryOptions (4 * second) [] 5 =
      some (2, some 2, none) := by
  constructor
  · decide
  · decide

/-- Claim C9 (amended): when, after an unsatisfied non-terminal
iteration, the remaining budget equals MinDelay exactly and MinDelay is
positive, the waiter does not report the deadline-exceeded failure at
that point: equality falls on the "continue" side of the
remaining < MinDelay test, so the iteration proceeds into backoff toward
one more poll (or fails only for a backoff-computation or cancellation
reason). -/
theorem c9_boundary_continues {Output : Type} (env : WaiterEnv Output)
    (minD maxD : Duration) (attempt : Nat) (rt : Duration)
    (hmin : 0 < minD) (heq : rt - env.elapsed attempt = minD) :
    waitBackoff env minD maxD attempt rt ≠ .done none (some .exceededMaxWaitTime) ∧
    ((∃ rt2, waitBackoff env minD maxD attempt rt = .next rt2) ∨
     (∃ m, waitBackoff env minD maxD attempt rt = .done none (some (.computeDelayFailed m))) ∨
     (∃ m, waitBackoff env minD maxD attempt rt = .done none (some (.cancelled m)))) := by
  have hncond : ¬(rt - env.elapsed attempt < minD ∨ rt - env.elapsed attempt ≤ 0) := by
    rw [heq]
    rintro (h1 | h2)
    · exact absurd h1 (lt_irrefl minD)
    · exact absurd h2 (not_le.mpr hmin)
  have hred : waitBackoff env minD maxD attempt rt =
      (match env.computeDelay attempt minD maxD (rt - env.elapsed attempt) with
       | .error msg => .done none (some (.computeDelayFailed msg))
       | .ok delay =>
         match env.sleep attempt delay with
         | some msg => .done none (some (.cancelled msg))
         | none => .next (rt - env.elapsed attempt - delay)) := by
    simp only [waitBackoff]
    rw [if_neg hncond]
  constructor
  · rw [hred]
    cases hc : env.computeDelay attempt minD maxD (rt - env.elapsed attempt) with
    | error m => simp
    | ok d =>
      cases hs : env.sleep attempt d with
      | some m => simp [hs]
      | none => simp [hs]
  · rw [hred]
    cases hc : env.computeDelay attempt minD maxD (rt - env.elapsed attempt) with
    | error m => exact Or.inr (Or.inl ⟨m, rfl⟩)
    | ok d =>
      cases hs : env.sleep attempt d with
      | some m => exact Or.inr (Or.inr ⟨m, by simp [hs]⟩)
      | none => exact Or.inl ⟨rt - env.elapsed attempt - d, by simp [hs]⟩

/-- Witness for C9 (amended): in the boundary stub's first iteration the
remaining budget equals MinDelay exactly and the iteration continues
into the next poll rather than failing with deadline exceeded. -/
theorem c9_boundary_continues_witness :
    waitBackoff envBoundaryStub (2 * second) (120 * second) 1 (4 * second) ≠
      .done none (some .exceededMaxWaitTime) ∧
    ((∃ rt2, waitBackoff envBoundaryStub (2 * second) (120 * second) 1 (4 * second) = .next rt2) ∨
     (∃ m, waitBackoff envBoundaryStub (2 * second) (120 * second) 1 (4 * second) =
       .done none (some (.computeDelayFailed m))) ∨
     (∃ m, waitBackoff envBoundaryStub (2 * second) (120 * second) 1 (4 * second) =
       .done none (some (.cancelled m)))) :=
  c9_boundary_continues envBoundaryStub (2 * second) (120 * second) 1 (4 * second)
    (by decide) (by decide)

/-- Counterexample to C8 as stated: the Retry Classifier function
`isErrorRetryable` does return the retryable verdict (true) when handed
a nil error. -/
theorem c8_counterexample : isErrorRetryable none = true := rfl

/-- Claim C8 (amended): `isErrorRetryable` returns true for a nil error,
but the waiter never consults it on a nil error: an iteration whose call
returns a nil error proceeds to condition evaluation and can never
produce a terminal-API-error result; timeout errors and
throttling/retryable errors (including the code
"InvalidInstanceID.NotFound") both yield the same retryable decision. -/
theorem c8_classifier {Output : Type} :
    isErrorRetryable none = true ∧
    (∀ e, timeoutsVerdict e = true → isErrorRetryable (some e) = true) ∧
    (∀ e, e.code = some invalidInstanceIdNotFound → isErrorRetryable (some e) = true) ∧
    (∀ (env : WaiterEnv Output) (minD maxD : Duration) (attempt : Nat)
       (rt : Duration) (o0 oe : Option Output) (e : ApiError),
       env.describe attempt = (o0, none) →
       waitStep env minD maxD attempt rt ≠ .done oe (some (.apiTerminal e))) ∧
    (∀ (env : WaiterEnv Output) (minD maxD : Duration) (attempt : Nat)
       (rt : Duration) (o0 : Option Output),
       env.describe attempt = (o0, none) →
       env.condition o0 = .ok true →
       waitStep env minD maxD attempt rt = .done o0 none) := by
  refine ⟨rfl, ?_, ?_, ?_, ?_⟩
  · intro e h
    simp [isErrorRetryable, h]
  · intro e h
    simp only [isErrorRetryable, timeoutsVerdict, retryablesVerdict, h, if_true]
    split <;> simp
  · intro env minD maxD attempt rt o0 oe e hdesc
    simp only [waitStep, hdesc]
    cases hcond : env.condition o0 with
    | error msg => simp
    | ok b =>
      cases b with
      | true => simp
      | false =>
        simp only []
        intro hcontra
        obtain ⟨-, hcases⟩ :=
          waitBackoff_done env minD maxD attempt rt oe (some (.apiTerminal e)) hcontra
        rcases hcases with h | ⟨m, h⟩ | ⟨m, h⟩ <;> simp at h
  · intro env minD maxD attempt rt o0 hdesc hcond
    simp only [waitStep, hdesc, hcond]

/-- Witness for C8 (amended): the timeout error and the not-found error
are both classified retryable, and a successful call with a true
condition ends the iteration in success. -/
theorem c8_classifier_witness :
    isErrorRetryable (some timeoutErr) = true ∧
    isErrorRetryable (some notFoundErr) = true ∧
    waitStep envImmediateSuccess (15 * second) (120 * second) 1 (100 * second) =
      .done (some 0) none :=
  ⟨(@c8_classifier Nat).2.1 timeoutErr rfl,
    (@c8_classifier Nat).2.2.1 notFoundErr rfl,
    (@c8_classifier Nat).2.2.2.2 envImmediateSuccess (15 * second)
      (120 * second) 1 (100 * second) (some 0) rfl rfl⟩

/-- Claim C6: EnsureRunning starts the primary "containerd" unit first;
a primary-start error is returned as-is with no further StartDaemon
call; the "soci-snapshotter.socket" unit is started only when the
FastContainerImagePull gate is enabled and only after the primary start
succeeded; with the gate disabled the call list is exactly the one
primary call. -/
theorem c6_ensure_running (startDaemon : String → Option String) (cfg : NodeConfig) :
    (EnsureRunning startDaemon cfg).1.head? = some ContainerdDaemonName ∧
    (∀ e, startDaemon ContainerdDaemonName = some e →
      EnsureRunning startDaemon cfg = ([ContainerdDaemonName], some e)) ∧
    (startDaemon ContainerdDaemonName = none →
      IsFeatureEnabled FastContainerImagePull cfg.spec.featureGates = true →
      EnsureRunning startDaemon cfg =
        ([ContainerdDaemonName, SociSnapshotterSocketName],
          startDaemon SociSnapshotterSocketName)) ∧
    (IsFeatureEnabled FastContainerImagePull cfg.spec.featureGates = false →
      (EnsureRunning startDaemon cfg).1 = [ContainerdDaemonName] ∧
      (startDaemon ContainerdDaemonName = none →
        EnsureRunning startDaemon cfg = ([ContainerdDaemonName], none))) := by
  refine ⟨?_, ?_, ?_, ?_⟩
  · rw [EnsureRunning]
    cases hp : startDaemon ContainerdDaemonName with
    | some e => rfl
    | none =>
      cases hg : IsFeatureEnabled FastContainerImagePull cfg.spec.featureGates <;> simp
  · intro e hp
    rw [EnsureRunning, hp]
  · intro hp hg
    rw [EnsureRunning, hp]
    simp [hg]
  · intro hg
    constructor
    · rw [EnsureRunning]
      cases hp : startDaemon ContainerdDaemonName with
      | some e => rfl
      | none => simp [hg]
    · intro hp
      rw [EnsureRunning, hp]
      simp [hg]

/-- Witness for C6: with a manager that starts every unit successfully
and the gate absent, EnsureRunning makes exactly the one primary call;
with the gate enabled it starts primary then the soci socket. -/
theorem c6_ensure_running_witness :
    EnsureRunning (fun _ => none) { spec := { featureGates := [] } } =
      ([ContainerdDaemonName], none) ∧
    EnsureRunning (fun _ => none)
        { spec := { featureGates := [(FastContainerImagePull, true)] } } =
      ([ContainerdDaemonName, SociSnapshotterSocketName], none) :=
  ⟨((c6_ensure_running (fun _ => none) { spec := { featureGates := [] } }).2.2.2
      rfl).2 rfl,
    (c6_ensure_running (fun _ => none)
      { spec := { featureGates := [(FastContainerImagePull, true)] } }).2.2.1 rfl rfl⟩

/-- The merge of the base containerd fragment with the soci fragment,
written out: the CRI containerd table gains the snapshotter key and the
proxy_plugins table is appended. -/
theorem mergedSociConfig_eq :
    TomlValue.merge containerdBaseConfig sociConfigFragment =
      .table (.cons "version" (.str "2")
        (.cons "plugins" (.table (.cons "io.containerd.grpc.v1.cri"
          (.table (.cons "containerd"
            (.table (.cons "default_runtime_name" (.str "runc")
              (.cons "snapshotter" (.str "soci") .nil))) .nil)) .nil))
        (.cons "proxy_plugins" (.table (.cons "soci"
          (.table (.cons "type" (.str "snapshot") .nil)) .nil)) .nil))) := by
  simp [containerdBaseConfig, sociConfigFragment, TomlValue.merge,
    TomlEntries.mergeInto, TomlEntries.insert]

/-- Claim C7: with the FastContainerImagePull gate enabled the combined
containerd config sets the CRI snapshotter to "soci" and the soci proxy
plugin's type to "snapshot"; with the gate disabled — including absent
from the set or an empty set, which are simply "false", never an error —
the combined config has no snapshotter = "soci" entry. -/
theorem c7_snapshotter_config (cfg : NodeConfig) :
    (IsFeatureEnabled FastContainerImagePull cfg.spec.featureGates = true →
      (combineContainerdConfigs cfg).lookupStr
        ["plugins", "io.containerd.grpc.v1.cri", "containerd", "snapshotter"] =
          some "soci" ∧
      (combineContainerdConfigs cfg).lookupStr
        ["proxy_plugins", "soci", "type"] = some "snapshot") ∧
    (IsFeatureEnabled FastContainerImagePull cfg.spec.featureGates = false →
      (combineContainerdConfigs cfg).lookupStr
        ["plugins", "io.containerd.grpc.v1.cri", "containerd", "snapshotter"] ≠
          some "soci") ∧
    IsFeatureEnabled FastContainerImagePull [] = false := by
  refine ⟨?_, ?_, rfl⟩
  · intro hg
    rw [combineContainerdConfigs, if_pos hg, mergedSociConfig_eq]
    exact ⟨rfl, rfl⟩
  · intro hg
    rw [combineContainerdConfigs, if_neg (by rw [hg]; exact Bool.false_ne_true)]
    intro hcontra
    have : containerdBaseConfig.lookupStr
        ["plugins", "io.containerd.grpc.v1.cri", "containerd", "snapshotter"] =
          (none : Option String) := rfl
    rw [this] at hcontra
    cases hcontra

/-- Witness for C7: a NodeConfig enabling the gate yields the soci
snapshotter and proxy plugin entries; one with an empty gate set yields
no soci snapshotter entry. -/
theorem c7_snapshotter_config_witness :
    ((combineContainerdConfigs
        { spec := { featureGates := [(FastContainerImagePull, true)] } }).lookupStr
      ["plugins", "io.containerd.grpc.v1.cri", "containerd", "snapshotter"] =
        some "soci" ∧
     (combineContainerdConfigs
        { spec := { featureGates := [(FastContainerImagePull, true)] } }).lookupStr
      ["proxy_plugins", "soci", "type"] = some "snapshot") ∧
    (combineContainerdConfigs { spec := { featureGates := [] } }).lookupStr
      ["plugins", "io.containerd.grpc.v1.cri", "containerd", "snapshotter"] ≠
        some "soci" :=
  ⟨(c7_snapshotter_config
      { spec := { featureGates := [(FastContainerImagePull, true)] } }).1 rfl,
    (c7_snapshotter_config { spec := { featureGates := [] } }).2.1 rfl⟩

end EksAmi
